import Mathlib

set_option maxRecDepth 100000

/-!
Shallow embedding of the RLE codec and the block-device adapter of this
Pintos fork: `src/pintos/src/devices/block.c` together with the codec
interface `src/pintos/src/lib/compression.h`.  Bytes are modelled as `Nat`
values (the device only ever holds values < 256); the C shifts and masks on
machine integers are rendered as the corresponding `Nat` arithmetic
(`x >> 8 & 0xFF` becomes `x / 256 % 256`, and an OR of disjoint byte fields
becomes the same OR on `Nat`).
-/

namespace Pintos

/-- Value of `BLOCK_SECTOR_SIZE` (512 bytes, per the README and the test
suite's `#define BLOCK_SECTOR_SIZE 512`). -/
def BLOCK_SECTOR_SIZE : Nat := 512

/-- Modelled from the spec: `lib/compression.c` is absent from the tree (only
its header `lib/compression.h` is present).  This is the run scanner of
`compress_data` per spec §4.1: the length of the maximal leading run of
copies of `b` in the list. -/
def countRun (b : Nat) : List Nat → Nat
  | [] => 0
  | c :: rest => if c = b then countRun b rest + 1 else 0

/-- Modelled from the spec: the encode loop of the missing
`lib/compression.c` (`compress_data`, spec §4.1).  At each position the
maximal run of identical bytes is counted, capped at 255; a run of length
≥ 3 is emitted as the 3-byte record `0x00, count, value` and the scan skips
the whole run, anything shorter is emitted as a single literal byte.
`fuel` bounds the recursion; callers pass the input length, which always
suffices because each step consumes at least one input byte. -/
def compressAux : Nat → List Nat → List Nat
  | 0, _ => []
  | _, [] => []
  | fuel + 1, b :: rest =>
    let run := min (countRun b rest + 1) 255
    if 3 ≤ run then
      0 :: run :: b :: compressAux fuel (rest.drop (run - 1))
    else
      b :: compressAux fuel rest

/-- Modelled from the spec: `compress_data` of the missing
`lib/compression.c` (spec §4.1 and the header contract in
`lib/compression.h`): fails (returns NULL, here `none`) on an absent/empty
input, otherwise returns the encoded bytes and their exact length via the
`compressed_size` out-parameter. -/
def compress_data (data : List Nat) (size : Nat) : Option (List Nat × Nat) :=
  if data = [] ∨ size = 0 then none
  else
    let out := compressAux size (data.take size)
    some (out, out.length)

/-- Modelled from the spec: the decode loop of the missing
`lib/compression.c` (`decompress_data`, spec §4.1).  A `0x00` byte followed
by at least two more stream bytes is read as a run record `count, value`,
writing `count` copies of `value` bounded by the remaining output capacity;
any other byte — including a trailing `0x00` with fewer than two bytes after
it — is a literal.  Decoding stops when the stream or the capacity is
exhausted. -/
def decompressLoop : List Nat → Nat → List Nat
  | [], _ => []
  | 0 :: cnt :: v :: rest2, cap =>
    if cap = 0 then []
    else List.replicate (min cnt cap) v ++ decompressLoop rest2 (cap - min cnt cap)
  | b :: rest, cap =>
    if cap = 0 then [] else b :: decompressLoop rest (cap - 1)

/-- Modelled from the spec: `decompress_data` of the missing
`lib/compression.c` (spec §4.1 and the header contract): fails on an
absent/empty stream or a zero `compressed_size`/`original_size`; otherwise
decodes at most `csize` stream bytes into a buffer of exactly `osize` bytes.
The C buffer's undecoded tail is uninitialised heap memory; the model reads
it as zero, which no theorem below depends on. -/
def decompress_data (cdata : List Nat) (csize osize : Nat) : Option (List Nat) :=
  if cdata = [] ∨ csize = 0 ∨ osize = 0 then none
  else
    let d := decompressLoop (cdata.take csize) osize
    some (d ++ List.replicate (osize - d.length) 0)

/-- Unfolding equation for the encoder on a non-empty input. -/
theorem compressAux_cons (fuel b : Nat) (rest : List Nat) :
    compressAux (fuel + 1) (b :: rest)
      = if 3 ≤ min (countRun b rest + 1) 255 then
          0 :: min (countRun b rest + 1) 255 :: b ::
            compressAux fuel (rest.drop (min (countRun b rest + 1) 255 - 1))
        else b :: compressAux fuel rest := rfl

/-- Unfolding equation for the decoder on a well-formed run record. -/
theorem decompressLoop_run (cnt v : Nat) (rest2 : List Nat) (cap : Nat) :
    decompressLoop (0 :: cnt :: v :: rest2) cap
      = if cap = 0 then []
        else List.replicate (min cnt cap) v ++ decompressLoop rest2 (cap - min cnt cap) :=
  rfl

/-- Unfolding equation for the decoder on a nonzero (hence literal) head byte. -/
theorem decompressLoop_cons_ne (b : Nat) (hb : b ≠ 0) (rest : List Nat) (cap : Nat) :
    decompressLoop (b :: rest) cap
      = if cap = 0 then [] else b :: decompressLoop rest (cap - 1) := by
  match b, hb with
  | b + 1, _ => rfl

theorem cons_replicate_pred (n b : Nat) (T : List Nat) (hn : 1 ≤ n) :
    b :: (List.replicate (n - 1) b ++ T) = List.replicate n b ++ T := by
  cases n with
  | zero => omega
  | succ m => simp [List.replicate_succ]

theorem countRun_le_length (b : Nat) (l : List Nat) : countRun b l ≤ l.length := by
  induction l with
  | nil => simp [countRun]
  | cons c rest ih =>
    by_cases h : c = b
    · simp [countRun, h]
      omega
    · simp [countRun, h]

theorem take_eq_replicate_of_le_countRun (b : Nat) :
    ∀ (l : List Nat) (n : Nat), n ≤ countRun b l → l.take n = List.replicate n b := by
  intro l
  induction l with
  | nil =>
    intro n hn
    simp [countRun] at hn
    simp [hn]
  | cons c rest ih =>
    intro n hn
    by_cases h : c = b
    · subst h
      cases n with
      | zero => simp
      | succ m =>
        simp [countRun] at hn
        simp [List.take_succ_cons, List.replicate_succ, ih m (by omega)]
    · simp [countRun, h] at hn
      simp [hn]

/-- Round trip of the fueled encoder against the decoder, for inputs that
contain no zero byte: every run record re-expands to the run it encoded and
every literal is nonzero, hence never mistaken for a run marker. -/
theorem compressAux_roundtrip :
    ∀ (fuel : Nat) (l : List Nat), l.length ≤ fuel → (∀ b ∈ l, b ≠ 0) →
      decompressLoop (compressAux fuel l) l.length = l := by
  intro fuel
  induction fuel with
  | zero =>
    intro l hf _
    have hl : l = [] := List.length_eq_zero.mp (Nat.le_zero.mp hf)
    subst hl
    rfl
  | succ fuel ih =>
    intro l hf hz
    match l with
    | [] => rfl
    | b :: rest =>
      have hb : b ≠ 0 := hz b (List.mem_cons_self b rest)
      have hcr : countRun b rest ≤ rest.length := countRun_le_length b rest
      by_cases h3 : 3 ≤ min (countRun b rest + 1) 255
      · -- run-record branch
        have hrun_le : min (countRun b rest + 1) 255 ≤ countRun b rest + 1 :=
          Nat.min_le_left _ _
        have hcomp : compressAux (fuel + 1) (b :: rest)
            = 0 :: min (countRun b rest + 1) 255 :: b ::
                compressAux fuel (rest.drop (min (countRun b rest + 1) 255 - 1)) := by
          rw [compressAux_cons, if_pos h3]
        have hcap : min (countRun b rest + 1) 255 ≤ (b :: rest).length := by
          simp only [List.length_cons]
          omega
        have hmin : min (min (countRun b rest + 1) 255) ((b :: rest).length)
            = min (countRun b rest + 1) 255 := Nat.min_eq_left hcap
        have hTlen : (rest.drop (min (countRun b rest + 1) 255 - 1)).length
            = (b :: rest).length - min (countRun b rest + 1) 255 := by
          simp only [List.length_drop, List.length_cons]
          omega
        have hTz : ∀ x ∈ rest.drop (min (countRun b rest + 1) 255 - 1), x ≠ 0 :=
          fun x hx => hz x (List.mem_cons_of_mem b (List.drop_subset _ _ hx))
        have hTfuel : (rest.drop (min (countRun b rest + 1) 255 - 1)).length ≤ fuel := by
          simp only [List.length_drop]
          simp only [List.length_cons] at hf
          omega
        have hih := ih (rest.drop (min (countRun b rest + 1) 255 - 1)) hTfuel hTz
        have htake : rest.take (min (countRun b rest + 1) 255 - 1)
            = List.replicate (min (countRun b rest + 1) 255 - 1) b :=
          take_eq_replicate_of_le_countRun b rest _ (by omega)
        rw [hcomp]
        have hcapne : ¬ (b :: rest).length = 0 := by simp
        rw [decompressLoop_run, if_neg hcapne, hmin]
        rw [hTlen] at hih
        rw [hih]
        have hsplit : b :: rest
            = List.replicate (min (countRun b rest + 1) 255) b ++
                rest.drop (min (countRun b rest + 1) 255 - 1) := by
          conv_lhs => rw [← List.take_append_drop (min (countRun b rest + 1) 255 - 1) rest]
          rw [htake]
          exact cons_replicate_pred _ b _ (by omega)
        rw [← hsplit]
      · -- literal branch
        have hcomp : compressAux (fuel + 1) (b :: rest)
            = b :: compressAux fuel rest := by
          rw [compressAux_cons, if_neg h3]
        have hfr : rest.length ≤ fuel := by
          simp only [List.length_cons] at hf
          omega
        have hzr : ∀ x ∈ rest, x ≠ 0 := fun x hx => hz x (List.mem_cons_of_mem b hx)
        have hih := ih rest hfr hzr
        rw [hcomp]
        have hcapne : ¬ (b :: rest).length = 0 := by simp
        rw [decompressLoop_cons_ne b hb, if_neg hcapne]
        simp only [List.length_cons, Nat.add_sub_cancel]
        rw [hih]

/-- C2 (amended): for every non-empty byte buffer `X` that contains no
`0x00` byte, `decompress_data` applied to the output and output length of
`compress_data (X, |X|)` with `original_size = |X|` returns exactly `X`.
The restriction to zero-free buffers is forced by the counterexample
`[0, 5, 6]` below: the decoder cannot tell a literal `0x00` from a run
marker. -/
theorem C2_codec_roundtrip_zero_free (X : List Nat) (hne : X ≠ [])
    (hz : ∀ b ∈ X, b ≠ 0) :
    ∃ out n, compress_data X X.length = some (out, n)
      ∧ decompress_data out n X.length = some X := by
  have hlen : X.length ≠ 0 := by
    simpa [List.length_eq_zero] using hne
  have hx : X.take X.length = X := List.take_length X
  have hmain : decompressLoop (compressAux X.length X) X.length = X :=
    compressAux_roundtrip X.length X le_rfl hz
  refine ⟨compressAux X.length X, (compressAux X.length X).length, ?_, ?_⟩
  · simp [compress_data, hne, hlen, hx]
  · have hout_ne : compressAux X.length X ≠ [] := by
      intro h
      apply hne
      rw [h] at hmain
      exact hmain.symm
    have houtlen : (compressAux X.length X).length ≠ 0 := by
      simpa [List.length_eq_zero] using hout_ne
    simp [decompress_data, hout_ne, houtlen, hlen, List.take_length, hmain]

/-- C2 (counterexample): the claimed round-trip law fails on the concrete
buffer `[0x00, 0x05, 0x06]`.  The encoder emits the single `0x00` as a
literal, so the compressed stream is `[0, 5, 6]` itself; the decoder then
reads that leading `0x00` as a run marker and produces five copies of `6`
truncated to capacity three, i.e. `[6, 6, 6] ≠ [0, 5, 6]`. -/
theorem C2_codec_roundtrip_counterexample :
    compress_data [0, 5, 6] 3 = some ([0, 5, 6], 3)
    ∧ decompress_data [0, 5, 6] 3 3 = some [6, 6, 6]
    ∧ decompress_data [0, 5, 6] 3 3 ≠ some [0, 5, 6] := by
  decide

/-- Witness for C2: the amended round trip evaluated on the concrete
zero-free buffer `[1, 1, 1, 1, 7]`. -/
theorem C2_codec_roundtrip_zero_free_witness :
    (([1, 1, 1, 1, 7] : List Nat) ≠ [])
    ∧ (∀ b ∈ ([1, 1, 1, 1, 7] : List Nat), b ≠ 0)
    ∧ ∃ out n, compress_data [1, 1, 1, 1, 7] ([1, 1, 1, 1, 7] : List Nat).length
          = some (out, n)
        ∧ decompress_data out n ([1, 1, 1, 1, 7] : List Nat).length
          = some [1, 1, 1, 1, 7] :=
  ⟨by decide, by decide,
    C2_codec_roundtrip_zero_free [1, 1, 1, 1, 7] (by decide) (by decide)⟩

/-- `enum block_type` from `devices/block.h`, with the members named by
`block_type_name` in `devices/block.c` (lines 35-50). -/
inductive BlockType
  | kernel
  | filesys
  | scratch
  | swap
  | raw
  | foreign
deriving DecidableEq, Repr

/-- `struct block` from `devices/block.c` (lines 9-23).  The driver state
reachable through `ops`/`aux` is modelled as `contents`, mapping a sector
index to the 512 bytes the driver would return for it; `list_elem` and the
registry are outside the claims and omitted. -/
structure Block where
  name : String
  type : BlockType
  size : Nat
  contents : Nat → List Nat
  read_cnt : Nat
  write_cnt : Nat

/-- Raw driver operations issued through `block->ops` (`readOp sector` for
`ops->read`, `writeOp sector data` for `ops->write`), recorded in order. -/
inductive DriverOp
  | readOp (sector : Nat)
  | writeOp (sector : Nat) (data : List Nat)
deriving DecidableEq, Repr

/-- Result of `block_read`: `ok` carries the bytes copied into the caller's
buffer; `panicPastEnd` is the `PANIC ("Access past end of device ...")` in
`check_sector` (line 112); `panicDecompressFail` is the
`PANIC ("Failed to decompress block data")` at line 150. -/
inductive ReadOutcome
  | panicPastEnd
  | panicDecompressFail
  | ok (data : List Nat)
deriving DecidableEq, Repr

/-- Result of `block_write`: `panicPastEnd` as in `block_read`;
`assertForeignFail` is the failure of `ASSERT (block->type != BLOCK_FOREIGN)`
at line 167. -/
inductive WriteOutcome
  | panicPastEnd
  | assertForeignFail
  | ok
deriving DecidableEq, Repr

/-- The four header bytes stored by `block_write` (lines 193-197):
`block_buffer[0] = size & 0xFF`, `[1] = (size >> 8) & 0xFF`,
`[2] = (size >> 16) & 0xFF`, `[3] = (size >> 24) & 0xFF` — little-endian. -/
def storeSizeLE (n : Nat) : List Nat :=
  [n % 256, n / 256 % 256, n / 65536 % 256, n / 16777216 % 256]

/-- The size field as parsed by `block_read` (lines 136-140):
`(b[0] << 24) | (b[1] << 16) | (b[2] << 8) | b[3]` — big-endian.  For byte
values < 256 the OR of the disjoint shifted fields equals this sum. -/
def parseSizeBE (l : List Nat) : Nat :=
  l.getD 0 0 * 16777216 + l.getD 1 0 * 65536 + l.getD 2 0 * 256 + l.getD 3 0

/-- Little-endian value of the first four bytes of a physical block: the
reading convention the stored header of `block_write` (lines 193-197) is
written in; used to observe the stored size field. -/
def parseSizeLE (l : List Nat) : Nat :=
  match l with
  | b0 :: b1 :: b2 :: b3 :: _ => b0 + 256 * b1 + 65536 * b2 + 16777216 * b3
  | _ => 0

/-- Codec signature of `compress_data` in `lib/compression.h`. -/
def CompressFn : Type := List Nat → Nat → Option (List Nat × Nat)

/-- Codec signature of `decompress_data` in `lib/compression.h`. -/
def DecompressFn : Type := List Nat → Nat → Nat → Option (List Nat)

/-- Fallback decision of `block_write` (lines 172-182): compress the
caller's buffer; on failure (`NULL`) or a compressed length above
`BLOCK_SECTOR_SIZE - 4`, discard the result and fall back to
`compressed_size = 0` with the caller's buffer as payload source. -/
def writePayload (cf : CompressFn) (buffer : List Nat) : Nat × List Nat :=
  match cf buffer BLOCK_SECTOR_SIZE with
  | none => (0, buffer)
  | some (cdata, csize) =>
    if BLOCK_SECTOR_SIZE - 4 < csize then (0, buffer) else (csize, cdata)

/-- Bytes `block_write` memcpy's into its 512-byte `block_buffer`
(lines 193-206): the 4-byte little-endian header, then — when
`compressed_size == 0` — `BLOCK_SECTOR_SIZE` bytes of the caller's buffer
(note: 4 + 512 = 516 bytes, 4 past the end of the allocation), otherwise
`compressed_size` bytes of the compressed data. -/
def physicalCopied (csize : Nat) (buffer cdata : List Nat) : List Nat :=
  storeSizeLE csize ++
    (if csize = 0 then buffer.take BLOCK_SECTOR_SIZE else cdata.take csize)

/-- The 512 bytes the driver write actually persists: the header plus the
first `BLOCK_SECTOR_SIZE - 4` payload bytes.  In the compressed case the C
leaves the bytes after the payload uninitialised in `block_buffer`; the
model reads them as zero, which no theorem below depends on. -/
def physicalBlock (csize : Nat) (buffer cdata : List Nat) : List Nat :=
  let payload := if csize = 0 then buffer.take BLOCK_SECTOR_SIZE else cdata.take csize
  storeSizeLE csize ++
    (payload.take (BLOCK_SECTOR_SIZE - 4)
      ++ List.replicate (BLOCK_SECTOR_SIZE - 4 - payload.length) 0)

/-- `block_read` from `devices/block.c` (lines 121-157): validate the
sector, issue one driver read and bump `read_cnt`, parse the first four
bytes of the physical block as the compressed size (big-endian, lines
136-140); if zero, copy the physical block itself (from offset 0, line 143)
into the caller's buffer, otherwise decompress the payload at offset 4 and
copy `BLOCK_SECTOR_SIZE` bytes of the result, panicking when the codec
fails.  The result triple is (outcome, device after the call, driver
operations issued).  The malloc-failure panic is not modelled: allocation
always succeeds here. -/
def block_read (dec : DecompressFn) (b : Block) (sector : Nat) :
    ReadOutcome × Block × List DriverOp :=
  if b.size ≤ sector then (.panicPastEnd, b, [])
  else
    let phys := b.contents sector
    let b' := { b with read_cnt := b.read_cnt + 1 }
    let csize := parseSizeBE phys
    if csize = 0 then
      (.ok (phys.take BLOCK_SECTOR_SIZE), b', [.readOp sector])
    else
      match dec (phys.drop 4) csize BLOCK_SECTOR_SIZE with
      | none => (.panicDecompressFail, b', [.readOp sector])
      | some d => (.ok (d.take BLOCK_SECTOR_SIZE), b', [.readOp sector])

/-- `block_write` from `devices/block.c` (lines 164-217): validate the
sector, assert the device is not foreign, apply the fallback rule
(`writePayload`), build the physical block and issue one driver write,
bumping `write_cnt`.  The result triple is (outcome, device after the call,
driver operations issued). -/
def block_write (cf : CompressFn) (b : Block) (sector : Nat) (buffer : List Nat) :
    WriteOutcome × Block × List DriverOp :=
  if b.size ≤ sector then (.panicPastEnd, b, [])
  else if b.type = .foreign then (.assertForeignFail, b, [])
  else
    let p := writePayload cf buffer
    let phys := physicalBlock p.1 buffer p.2
    (.ok,
      { b with
          contents := fun s => if s = sector then phys else b.contents s,
          write_cnt := b.write_cnt + 1 },
      [.writeOp sector phys])

/-- A 512-byte logical block of alternating `0x01`/`0x02` bytes: it has no
run of length ≥ 3, so the codec emits 512 literals, the fallback rule fires
and the block is stored RAW. -/
def altBlock : List Nat :=
  (List.range BLOCK_SECTOR_SIZE).map fun i => if i % 2 = 0 then 1 else 2

/-- A one-sector device whose stored physical block is all zeroes. -/
def dev1 : Block :=
  { name := "hda", type := .filesys, size := 1,
    contents := fun _ => List.replicate BLOCK_SECTOR_SIZE 0,
    read_cnt := 0, write_cnt := 0 }

/-- C1: the adapter round trip `block_read ∘ block_write` fails on the code.
For the RAW-stored 512-byte block `altBlock`, `block_write` places only the
first 508 buffer bytes after the 4-byte zero header (lines 193-206), and
`block_read` copies the physical block from offset 0 (line 143), so the
caller gets the zero header followed by the first 508 original bytes — not
the original block.  Evaluates the code at the failing input. -/
theorem C1_adapter_roundtrip_fails :
    (block_read decompress_data
        (block_write compress_data dev1 0 altBlock).2.1 0).1
      = .ok (storeSizeLE 0 ++ altBlock.take (BLOCK_SECTOR_SIZE - 4))
    ∧ storeSizeLE 0 ++ altBlock.take (BLOCK_SECTOR_SIZE - 4) ≠ altBlock := by
  constructor
  · decide
  · decide

/-- C3: the 4-byte size field is not read back as the value written.
`block_write` stores the field little-endian (lines 193-197) but
`block_read` parses it big-endian (lines 136-140): for compressed size 1 the
stored bytes are `[1, 0, 0, 0]` and the parse yields `2^24 = 16777216`, not
`1`.  Evaluates the code at the failing input. -/
theorem C3_size_field_endianness_mismatch :
    storeSizeLE 1 = [1, 0, 0, 0]
    ∧ parseSizeBE (storeSizeLE 1) = 16777216
    ∧ (16777216 : Nat) ≠ 1 := by
  decide

/-- A physical block whose size field is zero and whose first payload byte
(offset 4) is `7`. -/
def rawPhys : List Nat := [0, 0, 0, 0, 7] ++ List.replicate 507 0

/-- A one-sector device holding `rawPhys`. -/
def dev4 : Block :=
  { name := "hdb", type := .filesys, size := 1,
    contents := fun _ => rawPhys,
    read_cnt := 0, write_cnt := 0 }

/-- C4 (counterexample): on a physical block with size field 0, `block_read`
does not return the bytes following the header — it returns the physical
block starting at offset 0 (line 143).  Here the byte at offset 4 is `7`,
yet the first byte handed to the caller is the header byte `0`. -/
theorem C4_raw_read_counterexample :
    (block_read decompress_data dev4 0).1 = .ok rawPhys
    ∧ rawPhys.getD 0 0 = 0
    ∧ rawPhys.getD 4 0 = 7
    ∧ rawPhys.getD 0 0 ≠ rawPhys.getD 4 0 := by
  decide

/-- C4 (amended): for every physical block whose parsed size field is 0,
`block_read` returns the entire `SECTOR_SIZE`-byte physical block starting
at offset 0 — including the 4-byte header — as the logical block. -/
theorem C4_raw_read_returns_whole_block (b : Block) (s : Nat)
    (hs : s < b.size) (hlen : (b.contents s).length = BLOCK_SECTOR_SIZE)
    (h0 : parseSizeBE (b.contents s) = 0) :
    (block_read decompress_data b s).1 = .ok (b.contents s) := by
  have hns : ¬ b.size ≤ s := Nat.not_le.mpr hs
  simp [block_read, hns, h0, List.take_of_length_le (le_of_eq hlen)]

/-- Witness for the amended C4: the RAW read evaluated on `dev4`. -/
theorem C4_raw_read_returns_whole_block_witness :
    (0 < dev4.size)
    ∧ (dev4.contents 0).length = BLOCK_SECTOR_SIZE
    ∧ parseSizeBE (dev4.contents 0) = 0
    ∧ (block_read decompress_data dev4 0).1 = .ok (dev4.contents 0) :=
  ⟨by decide, by decide, by decide,
    C4_raw_read_returns_whole_block dev4 0 (by decide) (by decide) (by decide)⟩

/-- C5: the RAW branch of `block_write` does not keep the store inside the
512-byte physical buffer.  On the RAW-stored input `altBlock` the code
memcpy's `BLOCK_SECTOR_SIZE` payload bytes after the 4-byte header
(line 201), touching 516 bytes of a 512-byte allocation.  Evaluates the
copied extent at the failing input. -/
theorem C5_raw_branch_overflows :
    writePayload compress_data altBlock = (0, altBlock)
    ∧ (physicalCopied 0 altBlock altBlock).length = 516
    ∧ BLOCK_SECTOR_SIZE < (physicalCopied 0 altBlock altBlock).length := by
  refine ⟨by decide, by decide, by decide⟩

theorem parseSizeLE_store (n : Nat) (Y : List Nat) (h : n < 4294967296) :
    parseSizeLE (storeSizeLE n ++ Y) = n := by
  show n % 256 + 256 * (n / 256 % 256) + 65536 * (n / 65536 % 256)
      + 16777216 * (n / 16777216 % 256) = n
  omega

theorem parse_physicalBlock (csize : Nat) (buffer cdata : List Nat)
    (h : csize < 4294967296) :
    parseSizeLE (physicalBlock csize buffer cdata) = csize :=
  parseSizeLE_store csize _ h

/-- Physical block a successful `block_write` leaves on the device at the
written sector. -/
theorem block_write_stored (cf : CompressFn) (b : Block) (s : Nat)
    (buffer : List Nat) (hs : s < b.size) (hft : b.type ≠ .foreign) :
    (block_write cf b s buffer).2.1.contents s
      = physicalBlock (writePayload cf buffer).1 buffer (writePayload cf buffer).2 := by
  have hns : ¬ b.size ≤ s := Nat.not_le.mpr hs
  simp [block_write, hns, hft]

/-- C6 (confirmed): the fallback rule of `block_write`.  For any codec
outcome, the stored size field (read in the little-endian convention it was
written in) is `0` exactly when compression failed or its length exceeded
`BLOCK_SECTOR_SIZE - 4`, and is the compressed length in the complementary
case. -/
theorem C6_fallback_rule (cf : CompressFn) (b : Block) (s : Nat)
    (buffer : List Nat) (hs : s < b.size) (hft : b.type ≠ .foreign) :
    (cf buffer BLOCK_SECTOR_SIZE = none →
       parseSizeLE ((block_write cf b s buffer).2.1.contents s) = 0)
    ∧ (∀ out cs, cf buffer BLOCK_SECTOR_SIZE = some (out, cs) →
        BLOCK_SECTOR_SIZE - 4 < cs →
        parseSizeLE ((block_write cf b s buffer).2.1.contents s) = 0)
    ∧ (∀ out cs, cf buffer BLOCK_SECTOR_SIZE = some (out, cs) →
        cs ≤ BLOCK_SECTOR_SIZE - 4 →
        parseSizeLE ((block_write cf b s buffer).2.1.contents s) = cs) := by
  rw [block_write_stored cf b s buffer hs hft]
  refine ⟨?_, ?_, ?_⟩
  · intro hnone
    have hwp : writePayload cf buffer = (0, buffer) := by
      simp [writePayload, hnone]
    rw [hwp]
    exact parse_physicalBlock 0 buffer buffer (by norm_num)
  · intro out cs hsome hover
    have hwp : writePayload cf buffer = (0, buffer) := by
      simp [writePayload, hsome, hover]
    rw [hwp]
    exact parse_physicalBlock 0 buffer buffer (by norm_num)
  · intro out cs hsome hfit
    have hwp : writePayload cf buffer = (cs, out) := by
      simp [writePayload, hsome, Nat.not_lt.mpr hfit]
    rw [hwp]
    have : cs < 4294967296 := by
      have : BLOCK_SECTOR_SIZE - 4 = 508 := by norm_num [BLOCK_SECTOR_SIZE]
      omega
    exact parse_physicalBlock cs buffer out this

/-- Mock codec that always fails, exercising the compression-failure branch
of the fallback rule. -/
def cfNone : CompressFn := fun _ _ => none

/-- Mock codec that returns a fixed 3-byte result, exercising the
fits-in-block branch of the fallback rule. -/
def cfSmall : CompressFn := fun _ _ => some ([9, 9, 9], 3)

/-- Witness for C6: both the failure branch and the complementary branch of
the fallback rule evaluated on a concrete device and buffer. -/
theorem C6_fallback_rule_witness :
    (0 < dev1.size) ∧ dev1.type ≠ .foreign
    ∧ parseSizeLE ((block_write cfNone dev1 0 altBlock).2.1.contents 0) = 0
    ∧ parseSizeLE ((block_write cfSmall dev1 0 altBlock).2.1.contents 0) = 3 :=
  ⟨by decide, by decide,
    (C6_fallback_rule cfNone dev1 0 altBlock (by decide) (by decide)).1 rfl,
    (C6_fallback_rule cfSmall dev1 0 altBlock (by decide) (by decide)).2.2
      [9, 9, 9] 3 rfl (by decide)⟩

/-- C7 (confirmed): corrupt-block handling in `block_read`.  For any decoder
behaviour and any physical block whose parsed size field is positive, a
`NULL` decoder result makes `block_read` hit the fatal
`PANIC ("Failed to decompress block data")`, and a successful decode makes
it return `BLOCK_SECTOR_SIZE` bytes of the decompressed output. -/
theorem C7_corrupt_block_panics (dec : DecompressFn) (b : Block) (s : Nat)
    (hs : s < b.size) (hpos : 0 < parseSizeBE (b.contents s)) :
    (dec ((b.contents s).drop 4) (parseSizeBE (b.contents s)) BLOCK_SECTOR_SIZE
        = none →
      (block_read dec b s).1 = .panicDecompressFail)
    ∧ (∀ d,
        dec ((b.contents s).drop 4) (parseSizeBE (b.contents s)) BLOCK_SECTOR_SIZE
          = some d →
        (block_read dec b s).1 = .ok (d.take BLOCK_SECTOR_SIZE)) := by
  have hns : ¬ b.size ≤ s := Nat.not_le.mpr hs
  have hnz : ¬ parseSizeBE (b.contents s) = 0 := by omega
  constructor
  · intro hnone
    simp [block_read, hns, hnz, hnone]
  · intro d hsome
    simp [block_read, hns, hnz, hsome]

/-- Mock decoder that always fails, standing in for a corrupted payload. -/
def decFail : DecompressFn := fun _ _ _ => none

/-- A one-sector device holding a physical block whose size field parses to
`5` under the big-endian read convention. -/
def dev7 : Block :=
  { name := "hdc", type := .filesys, size := 1,
    contents := fun _ => [0, 0, 0, 5] ++ List.replicate 508 9,
    read_cnt := 0, write_cnt := 0 }

/-- Witness for C7: the decompression-failure panic evaluated on a concrete
device with a failing decoder. -/
theorem C7_corrupt_block_panics_witness :
    (0 < dev7.size)
    ∧ 0 < parseSizeBE (dev7.contents 0)
    ∧ (block_read decFail dev7 0).1 = .panicDecompressFail :=
  ⟨by decide, by decide,
    (C7_corrupt_block_panics decFail dev7 0 (by decide) (by decide)).1 rfl⟩

/-- C8 (confirmed): out-of-range sector handling.  For any sector at or past
the device size, both `block_read` and `block_write` stop with the fatal
`PANIC ("Access past end of device ...")` of `check_sector`, leaving the
device untouched and issuing no driver operation; for any in-range sector
the validation passes — neither function produces that panic. -/
theorem C8_out_of_range_panics (cf : CompressFn) (dec : DecompressFn)
    (b : Block) (s : Nat) (buffer : List Nat) :
    (b.size ≤ s →
       block_read dec b s = (.panicPastEnd, b, [])
       ∧ block_write cf b s buffer = (.panicPastEnd, b, []))
    ∧ (s < b.size →
       (block_read dec b s).1 ≠ .panicPastEnd
       ∧ (block_write cf b s buffer).1 ≠ .panicPastEnd) := by
  constructor
  · intro h
    exact ⟨by simp [block_read, h], by simp [block_write, h]⟩
  · intro h
    have hns : ¬ b.size ≤ s := Nat.not_le.mpr h
    constructor
    · by_cases h0 : parseSizeBE (b.contents s) = 0
      · simp [block_read, hns, h0]
      · cases hdec : dec ((b.contents s).drop 4) (parseSizeBE (b.contents s))
            BLOCK_SECTOR_SIZE <;>
          simp [block_read, hns, h0, hdec]
    · by_cases hft : b.type = .foreign
      · simp [block_write, hns, hft]
      · simp [block_write, hns, hft]

/-- Witness for C8: the past-end panic at sector 5 of a one-sector device,
and the passing validation at sector 0. -/
theorem C8_out_of_range_panics_witness :
    (dev1.size ≤ 5
      ∧ block_read decompress_data dev1 5 = (.panicPastEnd, dev1, [])
      ∧ block_write compress_data dev1 5 altBlock = (.panicPastEnd, dev1, []))
    ∧ (0 < dev1.size
      ∧ (block_read decompress_data dev1 0).1 ≠ .panicPastEnd
      ∧ (block_write compress_data dev1 0 altBlock).1 ≠ .panicPastEnd) :=
  ⟨⟨by decide,
    (C8_out_of_range_panics compress_data decompress_data dev1 5 altBlock).1
      (by decide)⟩,
   ⟨by decide,
    (C8_out_of_range_panics compress_data decompress_data dev1 0 altBlock).2
      (by decide)⟩⟩

/-- C9 (confirmed): counter frame effect.  Every successful `block_read`
issues exactly one driver read and bumps `read_cnt` by one, leaving
`write_cnt`, `name`, `type`, `size` and the stored contents unchanged; every
successful `block_write` issues exactly one driver write and bumps
`write_cnt` by one, leaving `read_cnt`, `name`, `type` and `size`
unchanged. -/
theorem C9_counter_frame (cf : CompressFn) (dec : DecompressFn) (b : Block)
    (s : Nat) (buffer : List Nat) :
    (∀ data, (block_read dec b s).1 = .ok data →
       (block_read dec b s).2.2 = [.readOp s]
       ∧ (block_read dec b s).2.1.read_cnt = b.read_cnt + 1
       ∧ (block_read dec b s).2.1.write_cnt = b.write_cnt
       ∧ (block_read dec b s).2.1.name = b.name
       ∧ (block_read dec b s).2.1.type = b.type
       ∧ (block_read dec b s).2.1.size = b.size
       ∧ (block_read dec b s).2.1.contents = b.contents)
    ∧ ((block_write cf b s buffer).1 = .ok →
       (∃ pb, (block_write cf b s buffer).2.2 = [.writeOp s pb])
       ∧ (block_write cf b s buffer).2.1.write_cnt = b.write_cnt + 1
       ∧ (block_write cf b s buffer).2.1.read_cnt = b.read_cnt
       ∧ (block_write cf b s buffer).2.1.name = b.name
       ∧ (block_write cf b s buffer).2.1.type = b.type
       ∧ (block_write cf b s buffer).2.1.size = b.size) := by
  constructor
  · intro data hok
    by_cases hrange : b.size ≤ s
    · simp [block_read, hrange] at hok
    · by_cases h0 : parseSizeBE (b.contents s) = 0
      · simp [block_read, hrange, h0]
      · cases hdec : dec ((b.contents s).drop 4) (parseSizeBE (b.contents s))
            BLOCK_SECTOR_SIZE with
        | none => simp [block_read, hrange, h0, hdec] at hok
        | some d => simp [block_read, hrange, h0, hdec]
  · intro hok
    by_cases hrange : b.size ≤ s
    · simp [block_write, hrange] at hok
    · by_cases hft : b.type = .foreign
      · simp [block_write, hrange, hft] at hok
      · simp [block_write, hrange, hft]

/-- Witness for C9: both frame effects evaluated on a concrete device. -/
theorem C9_counter_frame_witness :
    ((block_read decompress_data dev1 0).1
        = .ok (List.replicate BLOCK_SECTOR_SIZE 0))
    ∧ ((block_read decompress_data dev1 0).2.2 = [.readOp 0]
       ∧ (block_read decompress_data dev1 0).2.1.read_cnt = dev1.read_cnt + 1
       ∧ (block_read decompress_data dev1 0).2.1.write_cnt = dev1.write_cnt
       ∧ (block_read decompress_data dev1 0).2.1.name = dev1.name
       ∧ (block_read decompress_data dev1 0).2.1.type = dev1.type
       ∧ (block_read decompress_data dev1 0).2.1.size = dev1.size
       ∧ (block_read decompress_data dev1 0).2.1.contents = dev1.contents)
    ∧ ((block_write compress_data dev1 0 altBlock).1 = .ok)
    ∧ ((∃ pb, (block_write compress_data dev1 0 altBlock).2.2 = [.writeOp 0 pb])
       ∧ (block_write compress_data dev1 0 altBlock).2.1.write_cnt
           = dev1.write_cnt + 1
       ∧ (block_write compress_data dev1 0 altBlock).2.1.read_cnt = dev1.read_cnt
       ∧ (block_write compress_data dev1 0 altBlock).2.1.name = dev1.name
       ∧ (block_write compress_data dev1 0 altBlock).2.1.type = dev1.type
       ∧ (block_write compress_data dev1 0 altBlock).2.1.size = dev1.size) :=
  ⟨by decide,
   (C9_counter_frame compress_data decompress_data dev1 0 altBlock).1
     (List.replicate BLOCK_SECTOR_SIZE 0) (by decide),
   by decide,
   (C9_counter_frame compress_data decompress_data dev1 0 altBlock).2 (by decide)⟩

/-- A one-sector foreign device. -/
def devF : Block :=
  { name := "hdd", type := .foreign, size := 1,
    contents := fun _ => List.replicate BLOCK_SECTOR_SIZE 0,
    read_cnt := 0, write_cnt := 0 }

/-- C10 (confirmed): `block_write` fails its
`ASSERT (block->type != BLOCK_FOREIGN)` on a foreign device (after the
sector check), issuing no driver operation and leaving the device untouched,
while `block_read` never inspects the device type: its outcome and the
driver operations it issues are the same whatever the type field holds. -/
theorem C10_foreign_write_only (cf : CompressFn) (dec : DecompressFn)
    (b : Block) (s : Nat) (buffer : List Nat) (hs : s < b.size) :
    (b.type = .foreign →
       block_write cf b s buffer = (.assertForeignFail, b, []))
    ∧ (∀ t, (block_read dec { b with type := t } s).1 = (block_read dec b s).1
        ∧ (block_read dec { b with type := t } s).2.2
            = (block_read dec b s).2.2) := by
  have hns : ¬ b.size ≤ s := Nat.not_le.mpr hs
  constructor
  · intro hf
    simp [block_read, block_write, hns, hf]
  · intro t
    constructor <;>
      · by_cases h0 : parseSizeBE (b.contents s) = 0
        · simp [block_read, hns, h0]
        · cases hdec : dec ((b.contents s).drop 4) (parseSizeBE (b.contents s))
              BLOCK_SECTOR_SIZE <;>
            simp [block_read, hns, h0, hdec]

/-- Witness for C10: the foreign-write assertion failure and the
type-blindness of `block_read` evaluated on a concrete foreign device. -/
theorem C10_foreign_write_only_witness :
    (0 < devF.size)
    ∧ block_write compress_data devF 0 altBlock = (.assertForeignFail, devF, [])
    ∧ ((block_read decompress_data { devF with type := .raw } 0).1
        = (block_read decompress_data devF 0).1) :=
  ⟨by decide,
   (C10_foreign_write_only compress_data decompress_data devF 0 altBlock
       (by decide)).1 rfl,
   ((C10_foreign_write_only compress_data decompress_data devF 0 altBlock
       (by decide)).2 .raw).1⟩

end Pintos
